/-
Shallow embedding of the `alloy-remote-config-server` repository
(package `config`: `storage.go` and the template-registry file).

Modelling conventions:
* Go strings are modelled as `Str := List Char`; `fmt.Sprintf` key
  construction becomes explicit list construction.
* Each Go `map[string]string` (and the remote key-value database) is
  modelled as an association list `KV`; `kvSet`/`kvFind`/`kvDel` model
  map assignment, lookup and `delete`.  Go map iteration order is
  unspecified; the model iterates in list order.
* The remote (Redis) client is modelled as a key-value map shared by
  every `Storage` handle that points at the same server.  Client calls
  are modelled as always succeeding; key TTL / expiry is real-time
  behaviour and is not modelled.  `SCAN` with pattern `{org}:*` is
  modelled as filtering all keys by the literal prefix `{org}:`
  (exact for organization names free of glob metacharacters),
  with the cursor loop collapsed into one full pass.
* Operations whose only failure mode is "not found" return `Option`;
  `none` models the `fmt.Errorf` not-found error.
-/
import Mathlib

namespace AlloyConfig

/-- Go strings, modelled as lists of characters. -/
abbrev Str := List Char

/-- The character `{` (written via its code point). -/
def lbrace : Char := Char.ofNat 123

/-- The character `}` (written via its code point). -/
def rbrace : Char := Char.ofNat 125

/-- The literal `":template:"`, the marker substring used by the remote
backend (`strings.Contains(configKey, ":template:")` and the
`"%s:template:%s"` format). -/
def colonTC : Str := (":template:").toList

/-- The literal `"template:"` segment of the provenance-key format
`"{%s}:template:%s"`. -/
def tmplTag : Str := ("template:").toList

/-- `strings.HasPrefix(s, p)`: does `s` start with `p`? -/
def hasPref : Str → Str → Bool
  | [], _ => true
  | _ :: _, [] => false
  | a :: p, b :: s => a == b && hasPref p s

/-- `strings.TrimPrefix(s, p)`: `s` without the leading `p` when present,
otherwise `s` unchanged. -/
def trimPref (p s : Str) : Str :=
  if hasPref p s then s.drop p.length else s

/-- `strings.TrimSuffix(s, suf)`: `s` without the trailing `suf` when
present, otherwise `s` unchanged. -/
def trimSuf (suf s : Str) : Str :=
  if hasPref suf.reverse s.reverse then s.take (s.length - suf.length) else s

/-- `strings.Contains(s, sub)`: does `sub` occur inside `s`? -/
def containsSub : Str → Str → Bool
  | [], sub => sub.isEmpty
  | c :: t, sub => hasPref sub (c :: t) || containsSub t sub

/-- Association-list model of a Go `map[string]α` / a remote keyspace. -/
abbrev KV (α : Type) := List (Str × α)

/-- Map lookup (`v, ok := m[k]` / redis `GET`). -/
def kvFind {α : Type} : KV α → Str → Option α
  | [], _ => none
  | (k, v) :: t, key => if k = key then some v else kvFind t key

/-- Map deletion (`delete(m, k)` / redis `DEL`). -/
def kvDel {α : Type} : KV α → Str → KV α
  | [], _ => []
  | (k, v) :: t, key => if k = key then kvDel t key else (k, v) :: kvDel t key

/-- Map assignment (`m[k] = v` / redis `SET`). -/
def kvSet {α : Type} (m : KV α) (k : Str) (v : α) : KV α :=
  (k, v) :: kvDel m k

/-- The key list of a map (what a Go `range` / redis `SCAN` walks). -/
def kvKeys {α : Type} (m : KV α) : List Str :=
  m.map (fun e => e.1)

/-! ### The `Storage` type and its key schema (`storage.go`) -/

/-- The `Storage` struct of `storage.go`.  `RedisStore` holds the contents
of the remote database (shared across handles in Go; here carried in the
struct and, where sharing matters, threaded explicitly).  `TTL` is in
seconds (`time.Duration(ttlNum) * time.Second`). -/
structure Storage where
  UseRedis : Bool
  MemoryStore : KV Str
  MemoryTemplateMap : KV Str
  RedisStore : KV Str
  Organization : Str
  TTL : Int
  deriving Repr, DecidableEq

/-- `fmt.Sprintf("{%s}:%s", org, id)` — the artifact key. -/
def goKey (org id : Str) : Str :=
  lbrace :: org ++ rbrace :: ':' :: id

/-- `fmt.Sprintf("{%s}:template:%s", org, id)` — the provenance key
written by `SetWithTemplate` and read by `GetTemplate`. -/
def goTemplateKey (org id : Str) : Str :=
  lbrace :: org ++ rbrace :: colonTC ++ id

/-- `fmt.Sprintf("{%s}:", org)` — the organization prefix used by the
remote scans. -/
def orgPref (org : Str) : Str :=
  lbrace :: org ++ [rbrace, ':']

/-- The provenance-probe key built inside the remote branch of
`RemoveByTemplate`: `fmt.Sprintf("%s:template:%s", orgPrefix,
strings.TrimPrefix(configKey, orgPrefix))`. -/
def removeProbeKey (org configKey : Str) : Str :=
  orgPref org ++ colonTC ++ trimPref (orgPref org) configKey

/-! ### Storage operations (`storage.go`) -/

/-- `Storage.SetWithTemplate`: writes the artifact, then (remote) the
provenance key with the TTL, or (memory) both maps.  The remote `EXPIRE`
call only affects real-time expiry and is not modelled; client errors are
modelled as absent. -/
def Storage.SetWithTemplate (s : Storage) (id content templateName : Str) : Storage :=
  let key := goKey s.Organization id
  if s.UseRedis then
    let db := kvSet s.RedisStore key content
    let templateKey := goTemplateKey s.Organization id
    { s with RedisStore := kvSet db templateKey templateName }
  else
    { s with
        MemoryStore := kvSet s.MemoryStore key content,
        MemoryTemplateMap := kvSet s.MemoryTemplateMap key templateName }

/-- `Storage.Set`: delegates to `SetWithTemplate` with the default
template name `"unknown"`. -/
def Storage.Set (s : Storage) (id content : Str) : Storage :=
  s.SetWithTemplate id content ("unknown").toList

/-- `Storage.GetTemplate`: remote reads `{org}:template:{id}`; memory
reads the artifact key in `MemoryTemplateMap`.  `none` models the
not-found error. -/
def Storage.GetTemplate (s : Storage) (id : Str) : Option Str :=
  if s.UseRedis then
    kvFind s.RedisStore (goTemplateKey s.Organization id)
  else
    kvFind s.MemoryTemplateMap (goKey s.Organization id)

/-- One iteration of the remote `RemoveByTemplate` loop body over a
scanned `configKey`. -/
def redisRemoveStep (org templateName : Str) (db : KV Str) (configKey : Str) : KV Str :=
  if containsSub configKey colonTC then db
  else
    let templateKey := removeProbeKey org configKey
    match kvFind db templateKey with
    | none => db
    | some storedTemplateName =>
        if storedTemplateName = templateName then
          kvDel (kvDel db configKey) templateKey
        else db

/-- `Storage.RemoveByTemplate`.  Remote: scan all keys with the
organization prefix, skip keys containing `":template:"`, probe each
remaining key's companion provenance key and delete both on a match.
Memory: one pass over `MemoryTemplateMap` deleting matching artifacts
and collecting their keys, then delete those keys from the map. -/
def Storage.RemoveByTemplate (s : Storage) (templateName : Str) : Storage :=
  if s.UseRedis then
    let configKeys := (kvKeys s.RedisStore).filter
      (fun k => hasPref (orgPref s.Organization) k)
    { s with RedisStore :=
        configKeys.foldl (redisRemoveStep s.Organization templateName) s.RedisStore }
  else
    let pass := s.MemoryTemplateMap.foldl
      (fun acc e =>
        if e.2 = templateName then (kvDel acc.1 e.1, acc.2 ++ [e.1]) else acc)
      (s.MemoryStore, ([] : List Str))
    { s with
        MemoryStore := pass.1,
        MemoryTemplateMap := pass.2.foldl kvDel s.MemoryTemplateMap }

/-- `Storage.Get`: looks up the artifact key; `none` models the
not-found error. -/
def Storage.Get (s : Storage) (id : Str) : Option Str :=
  let key := goKey s.Organization id
  if s.UseRedis then kvFind s.RedisStore key else kvFind s.MemoryStore key

/-- `Storage.GetAll`: remote scans the organization prefix and strips it
from each key; memory walks every key of `MemoryStore` and strips the
prefix. -/
def Storage.GetAll (s : Storage) : List Str :=
  let p := orgPref s.Organization
  if s.UseRedis then
    ((kvKeys s.RedisStore).filter (fun k => hasPref p k)).map (trimPref p)
  else
    (kvKeys s.MemoryStore).map (trimPref p)

/-! ### `InitStorage` -/

/-- The environment read by `InitStorage`: `ORG_NAME`,
`USE_REDIS == "true"`, whether `redis.ParseURL(REDIS_URL)` succeeds
(the parse itself is external), and the raw `REDIS_TTL` value. -/
structure Env where
  orgName : Str
  useRedis : Bool
  redisURLOk : Bool
  redisTTL : Str
  deriving Repr, DecidableEq

/-- `strconv.Atoi`: returns the parsed value with `true`, or `(0, false)`
on a syntax error (Go returns `0` and `ErrSyntax`; the out-of-range clamp
is outside this model). -/
def goAtoi (s : Str) : Int × Bool :=
  match s with
  | [] => (0, false)
  | c :: rest =>
    let digits := if c = '-' ∨ c = '+' then rest else c :: rest
    if digits = [] then (0, false)
    else if digits.all Char.isDigit then
      let n : Nat := digits.foldl (fun a d => a * 10 + (d.toNat - 48)) 0
      (if c = '-' then -(n : Int) else (n : Int), true)
    else (0, false)

/-- `InitStorage`: remote branch fails (`none`) when the URL does not
parse; otherwise the TTL is 259200 unless `REDIS_TTL` is non-empty, in
which case `strconv.Atoi`'s value is used with its error discarded.
The fresh client starts over an empty modelled keyspace. -/
def InitStorage (env : Env) : Option Storage :=
  if env.useRedis then
    if env.redisURLOk then
      let ttlNum : Int := 259200
      let ttlNum := if 0 < env.redisTTL.length then (goAtoi env.redisTTL).1 else ttlNum
      some { UseRedis := true, MemoryStore := [], MemoryTemplateMap := [],
             RedisStore := [], Organization := env.orgName, TTL := ttlNum }
    else none
  else
    some { UseRedis := false, MemoryStore := [], MemoryTemplateMap := [],
           RedisStore := [], Organization := env.orgName, TTL := 0 }

/-! ### Operation sequences over a store -/

/-- A store operation, for stating invariants over arbitrary call
sequences. -/
inductive StOp where
  | opSet (id content : Str)
  | opSetWithTemplate (id content templateName : Str)
  | opRemoveByTemplate (templateName : Str)
  deriving Repr, DecidableEq

/-- Apply one operation. -/
def applyOp (s : Storage) : StOp → Storage
  | .opSet id content => s.Set id content
  | .opSetWithTemplate id content tn => s.SetWithTemplate id content tn
  | .opRemoveByTemplate tn => s.RemoveByTemplate tn

/-- Apply a sequence of operations. -/
def applyOps (s : Storage) (ops : List StOp) : Storage :=
  ops.foldl applyOp s

/-- A remote-backend `Storage` handle over the shared database `db` for
organization `org` (as Go builds one per organization against one
server). -/
def storageOf (org : Str) (db : KV Str) : Storage :=
  { UseRedis := true, MemoryStore := [], MemoryTemplateMap := [],
    RedisStore := db, Organization := org, TTL := 0 }

/-! ### Template registry (`LoadTemplates`) -/

/-- The recognized template suffix `".conf.tmpl"`. -/
def confTmplSuf : Str := (".conf.tmpl").toList

/-- One file found by `filepath.Glob(path, "*.conf.tmpl")`: its base name
and the outcome of `template.New(fullName).Parse(content)` — the parsing
engine is external, so the parse result (`none` = parse error) stands in
for the file's content. `ioutil.ReadFile` failures are outside the
model. -/
structure TmplFile where
  base : Str
  parsed : Option Str
  deriving Repr, DecidableEq

/-- The registry state: the package-level `templates` map and the
package-level `globalStorage` handle (`nil` = `none`). -/
structure RegState where
  templates : KV Str
  globalStorage : Option Storage
  deriving Repr, DecidableEq

/-- The `currentTemplates` set: the trimmed name of every globbed file. -/
def currentNames (files : List TmplFile) : List Str :=
  files.map (fun f => trimSuf confTmplSuf f.base)

/-- The `templatesToRemove` list: every name in the registry that is not
among the current file names. -/
def templatesToRemove (files : List TmplFile) (templates : KV Str) : List Str :=
  (kvKeys templates).filter (fun n => decide (¬ n ∈ currentNames files))

/-- The removal loop of `LoadTemplates`: delete each stale name from the
registry and, when `globalStorage` is set, cascade via
`RemoveByTemplate`. -/
def removeTemplates (names : List Str) (rs : RegState) : RegState :=
  names.foldl
    (fun st n =>
      { templates := kvDel st.templates n,
        globalStorage := st.globalStorage.map (fun g => g.RemoveByTemplate n) })
    rs

/-- The load loop of `LoadTemplates`: parse each file in glob order,
returning the parse error of the first failing file (leaving the map as
already mutated), otherwise storing each parsed template under its
trimmed name. -/
def loadPhase : List TmplFile → KV Str → KV Str × Option Str
  | [], t => (t, none)
  | f :: fs, t =>
    match f.parsed with
    | none => (t, some f.base)
    | some tmpl => loadPhase fs (kvSet t (trimSuf confTmplSuf f.base) tmpl)

/-- `LoadTemplates`: the glob result is passed in as `files` (the
`configFolder` bookkeeping and `filepath.Glob` errors are outside the
model); first the stale-template removal loop with its cascade, then the
load loop over the current files. -/
def LoadTemplates (files : List TmplFile) (rs : RegState) : RegState × Option Str :=
  let rs1 := removeTemplates (templatesToRemove files rs.templates) rs
  let lp := loadPhase files rs1.templates
  ({ templates := lp.1, globalStorage := rs1.globalStorage }, lp.2)

/-- Names of the files the load loop processes successfully before the
first parse failure (all of them when every file parses). -/
def parsedNames (files : List TmplFile) : List Str :=
  (files.takeWhile (fun f => f.parsed.isSome)).map (fun f => trimSuf confTmplSuf f.base)

/-! ### Side predicates used by the theorems -/

/-- An organization name that is free of the `}` key delimiter and of
redis glob metacharacters (for which the modelled prefix scan is exact). -/
abbrev GoodOrg (org : Str) : Prop :=
  ¬ rbrace ∈ org ∧ ¬ '*' ∈ org ∧ ¬ '?' ∈ org ∧ ¬ '[' ∈ org ∧ ¬ '\\' ∈ org

/-- The provenance-consistency invariant: every stored artifact has a
provenance entry — for the memory maps keyed by the artifact key, and
for the remote keyspace for every id that cannot alias a provenance key
(ids beginning with `"template:"` can). -/
def StoreInv (s : Storage) : Prop :=
  (∀ k, (kvFind s.MemoryStore k).isSome = true →
      (kvFind s.MemoryTemplateMap k).isSome = true) ∧
  (∀ id, hasPref tmplTag id = false →
      (kvFind s.RedisStore (goKey s.Organization id)).isSome = true →
      (kvFind s.RedisStore (goTemplateKey s.Organization id)).isSome = true)

/-! ## Lemmas about the map model -/

theorem kvKeys_cons {α : Type} (k : Str) (v : α) (t : KV α) :
    kvKeys ((k, v) :: t) = k :: kvKeys t := rfl

theorem kvFind_kvDel {α : Type} (m : KV α) (k x : Str) :
    kvFind (kvDel m k) x = if k = x then none else kvFind m x := by
  induction m with
  | nil => simp [kvDel, kvFind]
  | cons e t ih =>
    obtain ⟨k', v⟩ := e
    by_cases h1 : k' = k
    · simp only [kvDel, if_pos h1, ih, kvFind]
      by_cases h2 : k = x
      · simp [h2]
      · simp [h2, h1]
    · simp only [kvDel, if_neg h1, kvFind, ih]
      by_cases h2 : k' = x
      · have hkx : ¬ k = x := fun hk => h1 (h2.trans hk.symm)
        simp [h2, hkx]
      · simp [h2]

theorem kvFind_kvSet {α : Type} (m : KV α) (k v x) :
    kvFind (kvSet m k v) x = if k = x then some v else kvFind m x := by
  simp only [kvSet, kvFind, kvFind_kvDel]
  by_cases h : k = x <;> simp [h]

theorem kvFind_kvSet_isSome {α : Type} (m : KV α) (k v x)
    (h : (kvFind m x).isSome = true) :
    (kvFind (kvSet m k v) x).isSome = true := by
  rw [kvFind_kvSet]
  by_cases hkx : k = x <;> simp [hkx, h]

theorem kvFind_kvDel_isSome {α : Type} (m : KV α) (k x)
    (h : (kvFind (kvDel m k) x).isSome = true) :
    (kvFind m x).isSome = true := by
  rw [kvFind_kvDel] at h
  by_cases hkx : k = x <;> simp_all

theorem kvFind_foldl_kvDel {α : Type} (R : List Str) (m : KV α) (x : Str) :
    kvFind (R.foldl kvDel m) x = if x ∈ R then none else kvFind m x := by
  induction R generalizing m with
  | nil => simp
  | cons r R ih =>
    simp only [List.foldl_cons, ih, kvFind_kvDel, List.mem_cons]
    by_cases h1 : x ∈ R
    · simp [h1]
    · by_cases h2 : r = x
      · simp [h1, h2]
      · have h3 : ¬ x = r := fun h => h2 h.symm
        simp [h1, h2, h3]

theorem mem_kvKeys {α : Type} (m : KV α) (x : Str) :
    x ∈ kvKeys m ↔ (kvFind m x).isSome = true := by
  induction m with
  | nil => simp [kvKeys, kvFind]
  | cons e t ih =>
    obtain ⟨k, v⟩ := e
    rw [kvKeys_cons]
    by_cases h : k = x
    · simp [kvFind, h]
    · have h' : ¬ x = k := fun hh => h hh.symm
      simp [kvFind, h, h', ih]

theorem kvKeys_filter_kvDel {α : Type} (m : KV α) (k : Str) (q : Str → Bool)
    (hq : q k = false) :
    (kvKeys (kvDel m k)).filter q = (kvKeys m).filter q := by
  induction m with
  | nil => simp [kvDel]
  | cons e t ih =>
    obtain ⟨k', v⟩ := e
    by_cases h : k' = k
    · subst h
      simp only [kvDel, if_pos rfl, kvKeys_cons, List.filter_cons, hq]
      simpa using ih
    · simp only [kvDel, if_neg h, kvKeys_cons, List.filter_cons, ih]

theorem kvKeys_kvSet {α : Type} (m : KV α) (k v) :
    kvKeys (kvSet m k v) = k :: kvKeys (kvDel m k) := rfl

/-! ## Lemmas about the string helpers -/

theorem hasPref_iff (p s : Str) : hasPref p s = true ↔ ∃ t, s = p ++ t := by
  induction p generalizing s with
  | nil => simp [hasPref]
  | cons a p ih =>
    cases s with
    | nil => simp [hasPref]
    | cons b s =>
      simp only [hasPref, Bool.and_eq_true, beq_iff_eq, ih, List.cons_append,
        List.cons.injEq]
      constructor
      · rintro ⟨rfl, t, rfl⟩; exact ⟨t, rfl, rfl⟩
      · rintro ⟨t, rfl, rfl⟩; exact ⟨rfl, t, rfl⟩

theorem hasPref_append (p t : Str) : hasPref p (p ++ t) = true :=
  (hasPref_iff p (p ++ t)).mpr ⟨t, rfl⟩

theorem trimPref_append (p t : Str) : trimPref p (p ++ t) = t := by
  simp [trimPref, hasPref_append]

theorem containsSub_parts (u sub v : Str) :
    containsSub (u ++ (sub ++ v)) sub = true := by
  induction u with
  | nil =>
    simp only [List.nil_append]
    cases h : sub ++ v with
    | nil =>
      rcases List.append_eq_nil.mp h with ⟨rfl, rfl⟩
      simp [containsSub]
    | cons c t =>
      have : hasPref sub (c :: t) = true := h ▸ hasPref_append sub v
      simp [containsSub, this]
  | cons a u ih =>
    simp [containsSub, ih]

/-! ## Lemmas about the key schema -/

theorem goKey_decomp (org id : Str) : goKey org id = orgPref org ++ id := by
  simp [goKey, orgPref]

theorem colonTC_cons : colonTC = ':' :: tmplTag := by decide

theorem goTemplateKey_decomp (org id : Str) :
    goTemplateKey org id = orgPref org ++ (tmplTag ++ id) := by
  simp [goTemplateKey, orgPref, colonTC_cons]

theorem goTemplateKey_parts (org id : Str) :
    goTemplateKey org id = (lbrace :: org ++ [rbrace]) ++ (colonTC ++ id) := by
  simp [goTemplateKey]

theorem containsSub_goTemplateKey (org id : Str) :
    containsSub (goTemplateKey org id) colonTC = true := by
  rw [goTemplateKey_parts]; exact containsSub_parts _ _ _

theorem tag_ne_colonTag (a b : Str) : tmplTag ++ a ≠ colonTC ++ b := by
  intro h
  have e1 : tmplTag = 't' :: ("emplate:").toList := by decide
  have e2 : colonTC = ':' :: ("template:").toList := by decide
  rw [e1, e2] at h
  simp at h

theorem removeProbeKey_goKey (org id : Str) :
    removeProbeKey org (goKey org id) = orgPref org ++ (colonTC ++ id) := by
  rw [removeProbeKey, goKey_decomp, trimPref_append, List.append_assoc]

theorem removeProbeKey_decomp (org cfg : Str) :
    removeProbeKey org cfg
      = orgPref org ++ (colonTC ++ trimPref (orgPref org) cfg) := by
  rw [removeProbeKey, List.append_assoc]

theorem rb_split (a b x y : Str) (ha : ¬ rbrace ∈ a) (hb : ¬ rbrace ∈ b)
    (h : a ++ rbrace :: x = b ++ rbrace :: y) : a = b ∧ x = y := by
  induction a generalizing b with
  | nil =>
    cases b with
    | nil => simpa using h
    | cons d bt =>
      exfalso
      simp only [List.nil_append, List.cons_append, List.cons.injEq] at h
      exact hb (h.1 ▸ List.mem_cons_self d bt)
  | cons c at' ih =>
    cases b with
    | nil =>
      exfalso
      simp only [List.cons_append, List.nil_append, List.cons.injEq] at h
      exact ha (h.1 ▸ List.mem_cons_self c at')
    | cons d bt =>
      simp only [List.cons_append, List.cons.injEq] at h
      obtain ⟨rfl, h2⟩ := h
      have ha' : ¬ rbrace ∈ at' := fun hm => ha (List.mem_cons_of_mem _ hm)
      have hb' : ¬ rbrace ∈ bt := fun hm => hb (List.mem_cons_of_mem _ hm)
      obtain ⟨rfl, rfl⟩ := ih bt ha' hb' h2
      exact ⟨rfl, rfl⟩

theorem orgPref_inj (o1 o2 x y : Str) (h1 : ¬ rbrace ∈ o1) (h2 : ¬ rbrace ∈ o2)
    (h : orgPref o1 ++ x = orgPref o2 ++ y) : o1 = o2 ∧ x = y := by
  have h' : o1 ++ rbrace :: (':' :: x) = o2 ++ rbrace :: (':' :: y) := by
    have := h
    simp only [orgPref, List.cons_append, List.append_assoc,
      List.cons.injEq] at this
    simpa using this
  obtain ⟨rfl, hxy⟩ := rb_split o1 o2 (':' :: x) (':' :: y) h1 h2 h'
  simp only [List.cons.injEq] at hxy
  exact ⟨rfl, hxy.2⟩

theorem cross_org_key_ne (o1 o2 x y : Str) (h1 : ¬ rbrace ∈ o1)
    (h2 : ¬ rbrace ∈ o2) (hne : o1 ≠ o2) :
    orgPref o1 ++ x ≠ orgPref o2 ++ y := by
  intro h
  exact hne (orgPref_inj o1 o2 x y h1 h2 h).1

theorem two_pref_excl (o1 o2 K : Str) (h1 : ¬ rbrace ∈ o1) (h2 : ¬ rbrace ∈ o2)
    (hne : o1 ≠ o2) (hK : hasPref (orgPref o1) K = true) :
    hasPref (orgPref o2) K = false := by
  by_contra hf
  have hK2 : hasPref (orgPref o2) K = true := by
    cases h : hasPref (orgPref o2) K
    · exact absurd h hf
    · rfl
  obtain ⟨t1, rfl⟩ := (hasPref_iff _ _).mp hK
  obtain ⟨t2, he⟩ := (hasPref_iff _ _).mp hK2
  exact cross_org_key_ne o1 o2 t1 t2 h1 h2 hne he

/-! ## Lemmas about the remote removal loop -/

theorem redisRemoveStep_cases (org tn : Str) (db : KV Str) (cfg : Str) :
    redisRemoveStep org tn db cfg = db ∨
    (containsSub cfg colonTC = false ∧
     redisRemoveStep org tn db cfg = kvDel (kvDel db cfg) (removeProbeKey org cfg)) := by
  unfold redisRemoveStep
  by_cases hc : containsSub cfg colonTC = true
  · left; simp [hc]
  · have hc' : containsSub cfg colonTC = false := by
      cases h : containsSub cfg colonTC
      · rfl
      · exact absurd h hc
    cases hf : kvFind db (removeProbeKey org cfg) with
    | none => left; simp [hc', hf]
    | some stn =>
      by_cases hs : stn = tn
      · right; exact ⟨hc', by simp [hc', hf, hs]⟩
      · left; simp [hc', hf, hs]

theorem redisRemoveStep_find_pres (org tn : Str) (db : KV Str) (cfg K : Str)
    (hK : containsSub cfg colonTC = false →
      ¬ cfg = K ∧ ¬ removeProbeKey org cfg = K) :
    kvFind (redisRemoveStep org tn db cfg) K = kvFind db K := by
  rcases redisRemoveStep_cases org tn db cfg with h | ⟨hc, h⟩
  · rw [h]
  · rw [h, kvFind_kvDel, if_neg (hK hc).2, kvFind_kvDel, if_neg (hK hc).1]

theorem foldl_removeStep_find_pres (org tn : Str) (l : List Str) :
    ∀ (db : KV Str) (K : Str),
    (∀ cfg ∈ l, containsSub cfg colonTC = false →
      ¬ cfg = K ∧ ¬ removeProbeKey org cfg = K) →
    kvFind (l.foldl (redisRemoveStep org tn) db) K = kvFind db K := by
  induction l with
  | nil => intro db K _; rfl
  | cons c l ih =>
    intro db K h
    rw [List.foldl_cons, ih _ K (fun cfg hm => h cfg (List.mem_cons_of_mem c hm)),
      redisRemoveStep_find_pres org tn db c K (h c (List.mem_cons_self c l))]

theorem redisRemoveStep_isSome_down (org tn : Str) (db : KV Str) (cfg K : Str)
    (h : (kvFind (redisRemoveStep org tn db cfg) K).isSome = true) :
    (kvFind db K).isSome = true := by
  rcases redisRemoveStep_cases org tn db cfg with he | ⟨_, he⟩
  · rwa [he] at h
  · rw [he] at h
    exact kvFind_kvDel_isSome db cfg K (kvFind_kvDel_isSome _ _ K h)

theorem foldl_removeStep_isSome_down (org tn : Str) (l : List Str) :
    ∀ (db : KV Str) (K : Str),
    (kvFind (l.foldl (redisRemoveStep org tn) db) K).isSome = true →
    (kvFind db K).isSome = true := by
  induction l with
  | nil => intro db K h; exact h
  | cons c l ih =>
    intro db K h
    rw [List.foldl_cons] at h
    exact redisRemoveStep_isSome_down org tn db c K (ih _ K h)

theorem kvKeys_filter_kvSet {α : Type} (m : KV α) (k : Str) (v : α)
    (q : Str → Bool) (hq : q k = false) :
    (kvKeys (kvSet m k v)).filter q = (kvKeys m).filter q := by
  rw [kvKeys_kvSet, List.filter_cons, hq]
  simp only [Bool.false_eq_true, if_false]
  exact kvKeys_filter_kvDel m k q hq

theorem redisRemoveStep_keysFilter (org tn : Str) (db : KV Str) (cfg : Str)
    (q : Str → Bool)
    (h : containsSub cfg colonTC = false →
      q cfg = false ∧ q (removeProbeKey org cfg) = false) :
    (kvKeys (redisRemoveStep org tn db cfg)).filter q = (kvKeys db).filter q := by
  rcases redisRemoveStep_cases org tn db cfg with he | ⟨hc, he⟩
  · rw [he]
  · rw [he, kvKeys_filter_kvDel _ _ q (h hc).2, kvKeys_filter_kvDel _ _ q (h hc).1]

theorem foldl_removeStep_keysFilter (org tn : Str) (l : List Str)
    (q : Str → Bool) :
    ∀ db : KV Str,
    (∀ cfg ∈ l, containsSub cfg colonTC = false →
      q cfg = false ∧ q (removeProbeKey org cfg) = false) →
    (kvKeys (l.foldl (redisRemoveStep org tn) db)).filter q = (kvKeys db).filter q := by
  induction l with
  | nil => intro db _; rfl
  | cons c l ih =>
    intro db h
    rw [List.foldl_cons, ih _ (fun cfg hm => h cfg (List.mem_cons_of_mem c hm)),
      redisRemoveStep_keysFilter org tn db c q (h c (List.mem_cons_self c l))]

/-! ## Lemmas about the memory removal pass -/

theorem memPass_spec (tn : Str) (m : KV Str) :
    ∀ (st : KV Str) (acc : List Str),
    m.foldl
      (fun acc e => if e.2 = tn then (kvDel acc.1 e.1, acc.2 ++ [e.1]) else acc)
      (st, acc)
    = (((m.filter (fun e => decide (e.2 = tn))).map (fun e => e.1)).foldl kvDel st,
       acc ++ (m.filter (fun e => decide (e.2 = tn))).map (fun e => e.1)) := by
  induction m with
  | nil => intro st acc; simp
  | cons e t ih =>
    intro st acc
    obtain ⟨k, v⟩ := e
    by_cases h : v = tn
    · simp only [List.foldl_cons, List.filter_cons, h, decide_True, if_pos rfl,
        List.map_cons, List.foldl_cons]
      rw [ih]
      simp
    · simp only [List.foldl_cons, List.filter_cons, if_neg h]
      rw [ih]
      simp [h]

/-! ## Per-branch descriptions of the `Storage` methods -/

theorem SWT_UseRedis (s : Storage) (id c tn : Str) :
    (s.SetWithTemplate id c tn).UseRedis = s.UseRedis := by
  unfold Storage.SetWithTemplate; split_ifs <;> rfl

theorem SWT_Organization (s : Storage) (id c tn : Str) :
    (s.SetWithTemplate id c tn).Organization = s.Organization := by
  unfold Storage.SetWithTemplate; split_ifs <;> rfl

theorem SWT_redis_RedisStore (s : Storage) (hr : s.UseRedis = true) (id c tn : Str) :
    (s.SetWithTemplate id c tn).RedisStore
      = kvSet (kvSet s.RedisStore (goKey s.Organization id) c)
          (goTemplateKey s.Organization id) tn := by
  unfold Storage.SetWithTemplate; rw [if_pos hr]

theorem SWT_redis_MemoryStore (s : Storage) (hr : s.UseRedis = true) (id c tn : Str) :
    (s.SetWithTemplate id c tn).MemoryStore = s.MemoryStore := by
  unfold Storage.SetWithTemplate; rw [if_pos hr]

theorem SWT_redis_MemoryTemplateMap (s : Storage) (hr : s.UseRedis = true)
    (id c tn : Str) :
    (s.SetWithTemplate id c tn).MemoryTemplateMap = s.MemoryTemplateMap := by
  unfold Storage.SetWithTemplate; rw [if_pos hr]

theorem SWT_mem_MemoryStore (s : Storage) (hr : s.UseRedis = false) (id c tn : Str) :
    (s.SetWithTemplate id c tn).MemoryStore
      = kvSet s.MemoryStore (goKey s.Organization id) c := by
  unfold Storage.SetWithTemplate; rw [hr]; rfl

theorem SWT_mem_MemoryTemplateMap (s : Storage) (hr : s.UseRedis = false)
    (id c tn : Str) :
    (s.SetWithTemplate id c tn).MemoryTemplateMap
      = kvSet s.MemoryTemplateMap (goKey s.Organization id) tn := by
  unfold Storage.SetWithTemplate; rw [hr]; rfl

theorem SWT_mem_RedisStore (s : Storage) (hr : s.UseRedis = false) (id c tn : Str) :
    (s.SetWithTemplate id c tn).RedisStore = s.RedisStore := by
  unfold Storage.SetWithTemplate; rw [hr]; rfl

theorem RBT_UseRedis (s : Storage) (tn : Str) :
    (s.RemoveByTemplate tn).UseRedis = s.UseRedis := by
  unfold Storage.RemoveByTemplate; split_ifs <;> rfl

theorem RBT_Organization (s : Storage) (tn : Str) :
    (s.RemoveByTemplate tn).Organization = s.Organization := by
  unfold Storage.RemoveByTemplate; split_ifs <;> rfl

theorem RBT_redis_RedisStore (s : Storage) (hr : s.UseRedis = true) (tn : Str) :
    (s.RemoveByTemplate tn).RedisStore
      = ((kvKeys s.RedisStore).filter
          (fun k => hasPref (orgPref s.Organization) k)).foldl
          (redisRemoveStep s.Organization tn) s.RedisStore := by
  unfold Storage.RemoveByTemplate; rw [if_pos hr]

theorem RBT_redis_MemoryStore (s : Storage) (hr : s.UseRedis = true) (tn : Str) :
    (s.RemoveByTemplate tn).MemoryStore = s.MemoryStore := by
  unfold Storage.RemoveByTemplate; rw [if_pos hr]

theorem RBT_redis_MemoryTemplateMap (s : Storage) (hr : s.UseRedis = true) (tn : Str) :
    (s.RemoveByTemplate tn).MemoryTemplateMap = s.MemoryTemplateMap := by
  unfold Storage.RemoveByTemplate; rw [if_pos hr]

theorem RBT_mem_MemoryStore (s : Storage) (hr : s.UseRedis = false) (tn : Str) :
    (s.RemoveByTemplate tn).MemoryStore
      = ((s.MemoryTemplateMap.filter (fun e => decide (e.2 = tn))).map
          (fun e => e.1)).foldl kvDel s.MemoryStore := by
  unfold Storage.RemoveByTemplate; rw [hr]
  show (s.MemoryTemplateMap.foldl _ (s.MemoryStore, [])).1 = _
  rw [memPass_spec]

theorem RBT_mem_MemoryTemplateMap (s : Storage) (hr : s.UseRedis = false) (tn : Str) :
    (s.RemoveByTemplate tn).MemoryTemplateMap
      = ((s.MemoryTemplateMap.filter (fun e => decide (e.2 = tn))).map
          (fun e => e.1)).foldl kvDel s.MemoryTemplateMap := by
  unfold Storage.RemoveByTemplate; rw [hr]
  show ((s.MemoryTemplateMap.foldl _ (s.MemoryStore, [])).2).foldl kvDel
      s.MemoryTemplateMap = _
  rw [memPass_spec]
  simp

theorem RBT_mem_RedisStore (s : Storage) (hr : s.UseRedis = false) (tn : Str) :
    (s.RemoveByTemplate tn).RedisStore = s.RedisStore := by
  unfold Storage.RemoveByTemplate; rw [hr]; rfl

theorem Get_redis (s : Storage) (hr : s.UseRedis = true) (id : Str) :
    s.Get id = kvFind s.RedisStore (goKey s.Organization id) := by
  unfold Storage.Get; rw [if_pos hr]

theorem Get_mem (s : Storage) (hr : s.UseRedis = false) (id : Str) :
    s.Get id = kvFind s.MemoryStore (goKey s.Organization id) := by
  unfold Storage.Get; rw [hr]; rfl

theorem GetTemplate_redis (s : Storage) (hr : s.UseRedis = true) (id : Str) :
    s.GetTemplate id = kvFind s.RedisStore (goTemplateKey s.Organization id) := by
  unfold Storage.GetTemplate; rw [if_pos hr]

theorem GetTemplate_mem (s : Storage) (hr : s.UseRedis = false) (id : Str) :
    s.GetTemplate id = kvFind s.MemoryTemplateMap (goKey s.Organization id) := by
  unfold Storage.GetTemplate; rw [hr]; rfl

theorem GetAll_redis (s : Storage) (hr : s.UseRedis = true) :
    s.GetAll = ((kvKeys s.RedisStore).filter
        (fun k => hasPref (orgPref s.Organization) k)).map
        (trimPref (orgPref s.Organization)) := by
  unfold Storage.GetAll; rw [if_pos hr]

/-! ## Preservation of the provenance invariant -/

theorem goTemplateKey_ne_probe_shape (org id x : Str) :
    ¬ goTemplateKey org id = orgPref org ++ (colonTC ++ x) := by
  intro h
  rw [goTemplateKey_decomp] at h
  exact tag_ne_colonTag id x (List.append_cancel_left h)

theorem StoreInv_SetWithTemplate (s : Storage) (id content tn : Str)
    (h : StoreInv s) : StoreInv (s.SetWithTemplate id content tn) := by
  by_cases hr : s.UseRedis = true
  · constructor
    · intro k hf
      rw [SWT_redis_MemoryStore s hr] at hf
      rw [SWT_redis_MemoryTemplateMap s hr]
      exact h.1 k hf
    · intro i hp hf
      rw [SWT_redis_RedisStore s hr, SWT_Organization, kvFind_kvSet] at hf
      rw [SWT_redis_RedisStore s hr, SWT_Organization]
      by_cases h1 : goTemplateKey s.Organization id = goKey s.Organization i
      · exfalso
        rw [goTemplateKey_decomp, goKey_decomp] at h1
        have h2 : tmplTag ++ id = i := List.append_cancel_left h1
        rw [← h2, hasPref_append] at hp
        exact Bool.true_eq_false.mp hp
      · rw [if_neg h1, kvFind_kvSet] at hf
        by_cases h2 : goKey s.Organization id = goKey s.Organization i
        · have h3 : id = i := by
            rw [goKey_decomp, goKey_decomp] at h2
            exact List.append_cancel_left h2
          subst h3
          rw [kvFind_kvSet, if_pos rfl]
          rfl
        · rw [if_neg h2] at hf
          exact kvFind_kvSet_isSome _ _ _ _
            (kvFind_kvSet_isSome _ _ _ _ (h.2 i hp hf))
  · have hr' : s.UseRedis = false := by
      cases hu : s.UseRedis
      · rfl
      · exact absurd hu hr
    constructor
    · intro k hf
      rw [SWT_mem_MemoryStore s hr', kvFind_kvSet] at hf
      rw [SWT_mem_MemoryTemplateMap s hr']
      by_cases h1 : goKey s.Organization id = k
      · rw [kvFind_kvSet, if_pos h1]
        rfl
      · rw [if_neg h1] at hf
        exact kvFind_kvSet_isSome _ _ _ _ (h.1 k hf)
    · intro i hp hf
      rw [SWT_mem_RedisStore s hr', SWT_Organization] at hf
      rw [SWT_mem_RedisStore s hr', SWT_Organization]
      exact h.2 i hp hf

theorem StoreInv_RemoveByTemplate (s : Storage) (tn : Str)
    (h : StoreInv s) : StoreInv (s.RemoveByTemplate tn) := by
  by_cases hr : s.UseRedis = true
  · constructor
    · intro k hf
      rw [RBT_redis_MemoryStore s hr] at hf
      rw [RBT_redis_MemoryTemplateMap s hr]
      exact h.1 k hf
    · intro i hp hf
      rw [RBT_redis_RedisStore s hr, RBT_Organization] at hf
      rw [RBT_redis_RedisStore s hr, RBT_Organization]
      have h0 : (kvFind s.RedisStore (goKey s.Organization i)).isSome = true :=
        foldl_removeStep_isSome_down _ tn _ s.RedisStore _ hf
      have h1 := h.2 i hp h0
      rw [foldl_removeStep_find_pres s.Organization tn _ s.RedisStore _ ?_]
      · exact h1
      · intro cfg _ hc
        constructor
        · intro he
          rw [he, containsSub_goTemplateKey] at hc
          exact Bool.true_eq_false.mp hc
        · intro he
          rw [removeProbeKey_decomp] at he
          exact goTemplateKey_ne_probe_shape s.Organization i _ he.symm
  · have hr' : s.UseRedis = false := by
      cases hu : s.UseRedis
      · rfl
      · exact absurd hu hr
    constructor
    · intro k hf
      rw [RBT_mem_MemoryStore s hr', kvFind_foldl_kvDel] at hf
      rw [RBT_mem_MemoryTemplateMap s hr', kvFind_foldl_kvDel]
      by_cases hm : k ∈ (s.MemoryTemplateMap.filter
          (fun e => decide (e.2 = tn))).map (fun e => e.1)
      · rw [if_pos hm] at hf
        exact absurd hf (by simp)
      · rw [if_neg hm] at hf
        rw [if_neg hm]
        exact h.1 k hf
    · intro i hp hf
      rw [RBT_mem_RedisStore s hr'] at hf
      rw [RBT_mem_RedisStore s hr', RBT_Organization] at *
      exact h.2 i hp hf

theorem StoreInv_applyOp (s : Storage) (op : StOp) (h : StoreInv s) :
    StoreInv (applyOp s op) := by
  cases op with
  | opSet id c => exact StoreInv_SetWithTemplate s id c _ h
  | opSetWithTemplate id c tn => exact StoreInv_SetWithTemplate s id c tn h
  | opRemoveByTemplate tn => exact StoreInv_RemoveByTemplate s tn h

theorem StoreInv_applyOps (ops : List StOp) :
    ∀ s : Storage, StoreInv s → StoreInv (applyOps s ops) := by
  induction ops with
  | nil => intro s h; exact h
  | cons op ops ih =>
    intro s h
    exact ih (applyOp s op) (StoreInv_applyOp s op h)

theorem StoreInv_InitStorage (env : Env) (s : Storage)
    (h : InitStorage env = some s) : StoreInv s := by
  unfold InitStorage at h
  have hfields : s.MemoryStore = [] ∧ s.RedisStore = [] := by
    split_ifs at h <;> simp only [Option.some.injEq] at h <;>
      rw [← h] <;> exact ⟨rfl, rfl⟩
  constructor
  · intro k hf
    rw [hfields.1] at hf
    exact absurd hf (by simp [kvFind])
  · intro i _ hf
    rw [hfields.2] at hf
    exact absurd hf (by simp [kvFind])

theorem StoreInv_get_getTemplate (s : Storage) (h : StoreInv s) (id : Str)
    (hid : s.UseRedis = true → hasPref tmplTag id = false)
    (hg : (s.Get id).isSome = true) : (s.GetTemplate id).isSome = true := by
  by_cases hr : s.UseRedis = true
  · rw [Get_redis s hr] at hg
    rw [GetTemplate_redis s hr]
    exact h.2 id (hid hr) hg
  · have hr' : s.UseRedis = false := by
      cases hu : s.UseRedis
      · rfl
      · exact absurd hu hr
    rw [Get_mem s hr'] at hg
    rw [GetTemplate_mem s hr']
    exact h.1 (goKey s.Organization id) hg

/-! ## Lemmas about the template registry -/

theorem mem_kvKeys_foldl_kvDel {α : Type} (R : List Str) (t : KV α) (n : Str) :
    n ∈ kvKeys (R.foldl kvDel t) ↔ n ∈ kvKeys t ∧ ¬ n ∈ R := by
  rw [mem_kvKeys, kvFind_foldl_kvDel, mem_kvKeys]
  by_cases h : n ∈ R
  · simp [h]
  · simp [h]

theorem loadPhase_err (fs : List TmplFile) :
    ∀ t : KV Str,
    (loadPhase fs t).2 = (fs.find? (fun f => f.parsed.isNone)).map TmplFile.base := by
  induction fs with
  | nil => intro t; rfl
  | cons f fs ih =>
    intro t
    cases hp : f.parsed with
    | none =>
      rw [loadPhase, hp]
      rw [List.find?_cons_of_pos _ (by simp [hp])]
      rfl
    | some tm =>
      rw [loadPhase, hp]
      rw [List.find?_cons_of_neg _ (by simp [hp])]
      exact ih _

theorem parsedNames_cons_pos (f : TmplFile) (fs : List TmplFile)
    (h : f.parsed.isSome = true) :
    parsedNames (f :: fs) = trimSuf confTmplSuf f.base :: parsedNames fs := by
  unfold parsedNames
  rw [List.takeWhile_cons]
  simp [h]

theorem parsedNames_cons_neg (f : TmplFile) (fs : List TmplFile)
    (h : f.parsed.isSome = false) :
    parsedNames (f :: fs) = [] := by
  unfold parsedNames
  rw [List.takeWhile_cons_of_neg (by simp [h])]
  rfl

theorem mem_keys_loadPhase (fs : List TmplFile) :
    ∀ (t : KV Str) (n : Str),
    n ∈ kvKeys (loadPhase fs t).1 ↔ n ∈ parsedNames fs ∨ n ∈ kvKeys t := by
  induction fs with
  | nil =>
    intro t n
    simp [loadPhase, parsedNames]
  | cons f fs ih =>
    intro t n
    cases hp : f.parsed with
    | none =>
      rw [loadPhase, hp, parsedNames_cons_neg f fs (by simp [hp])]
      simp
    | some tm =>
      rw [loadPhase, hp, parsedNames_cons_pos f fs (by simp [hp])]
      rw [ih]
      rw [kvKeys_kvSet]
      have hdel : n ∈ kvKeys (kvDel t (trimSuf confTmplSuf f.base)) ↔
          n ∈ kvKeys t ∧ ¬ n = trimSuf confTmplSuf f.base := by
        rw [mem_kvKeys, kvFind_kvDel, mem_kvKeys]
        by_cases h : trimSuf confTmplSuf f.base = n
        · simp [h]
        · have h' : ¬ n = trimSuf confTmplSuf f.base := fun hh => h hh.symm
          simp [h, h']
      simp only [List.mem_cons, hdel]
      by_cases he : n = trimSuf confTmplSuf f.base <;> simp [he]

theorem kvFind_loadPhase_notname (fs : List TmplFile) :
    ∀ (t : KV Str) (n : Str), ¬ n ∈ currentNames fs →
    kvFind (loadPhase fs t).1 n = kvFind t n := by
  induction fs with
  | nil => intro t n _; rfl
  | cons f fs ih =>
    intro t n hn
    have hn1 : ¬ n = trimSuf confTmplSuf f.base := by
      intro h
      exact hn (by rw [h]; exact List.mem_cons_self _ _)
    have hn2 : ¬ n ∈ currentNames fs := by
      intro h
      exact hn (List.mem_cons_of_mem _ h)
    cases hp : f.parsed with
    | none => rw [loadPhase, hp]
    | some tm =>
      rw [loadPhase, hp, ih _ n hn2, kvFind_kvSet,
        if_neg (fun h => hn1 h.symm)]

theorem removeTemplates_templates (names : List Str) :
    ∀ rs : RegState,
    (removeTemplates names rs).templates = names.foldl kvDel rs.templates := by
  induction names with
  | nil => intro rs; rfl
  | cons n names ih =>
    intro rs
    rw [removeTemplates, List.foldl_cons, List.foldl_cons]
    exact ih _

theorem parsedNames_subset_current (files : List TmplFile) (n : Str)
    (h : n ∈ parsedNames files) : n ∈ currentNames files := by
  unfold parsedNames at h
  unfold currentNames
  rcases List.mem_map.mp h with ⟨f, hf, rfl⟩
  exact List.mem_map.mpr ⟨f, (List.takeWhile_sublist _).mem hf, rfl⟩

theorem mem_keys_LoadTemplates (files : List TmplFile) (rs : RegState) (n : Str) :
    n ∈ kvKeys (LoadTemplates files rs).1.templates ↔
      n ∈ parsedNames files ∨
      (n ∈ kvKeys rs.templates ∧ ¬ n ∈ templatesToRemove files rs.templates) := by
  show n ∈ kvKeys (loadPhase files
      (removeTemplates (templatesToRemove files rs.templates) rs).templates).1 ↔ _
  rw [mem_keys_loadPhase, removeTemplates_templates, mem_kvKeys_foldl_kvDel]

theorem keys_LoadTemplates_subset_current (files : List TmplFile) (rs : RegState)
    (n : Str) (h : n ∈ kvKeys (LoadTemplates files rs).1.templates) :
    n ∈ currentNames files := by
  rcases (mem_keys_LoadTemplates files rs n).mp h with h1 | ⟨h1, h2⟩
  · exact parsedNames_subset_current files n h1
  · by_contra hc
    exact h2 (List.mem_filter.mpr ⟨h1, by simp [hc]⟩)

theorem templatesToRemove_after (files : List TmplFile) (rs : RegState) :
    templatesToRemove files (LoadTemplates files rs).1.templates = [] := by
  unfold templatesToRemove
  rw [List.filter_eq_nil_iff]
  intro n hn
  simp only [decide_not, Bool.not_eq_true', Bool.not_eq_false]
  exact decide_eq_true (keys_LoadTemplates_subset_current files rs n hn)

/-! ## Helper lemmas for namespace isolation and `InitStorage` -/

theorem kvFind_kvSet_ne_key {α : Type} (m : KV α) (k : Str) (v : α) (x : Str)
    (h : ¬ k = x) : kvFind (kvSet m k v) x = kvFind m x := by
  rw [kvFind_kvSet, if_neg h]

theorem foldl_removeStep_find_foreign (o1 tn : Str) (l : List Str) (db : KV Str)
    (K : Str) (hl : ∀ k ∈ l, hasPref (orgPref o1) k = true)
    (hK : hasPref (orgPref o1) K = false) :
    kvFind (l.foldl (redisRemoveStep o1 tn) db) K = kvFind db K := by
  apply foldl_removeStep_find_pres
  intro cfg hm _
  constructor
  · intro he
    rw [he] at hm
    rw [hl K hm] at hK
    exact Bool.true_eq_false.mp hK
  · intro he
    have hKp : hasPref (orgPref o1) K = true := by
      rw [← he, removeProbeKey_decomp]
      exact hasPref_append _ _
    rw [hKp] at hK
    exact Bool.true_eq_false.mp hK

theorem foldl_removeStep_keysFilter_foreign (o1 tn : Str) (l : List Str)
    (db : KV Str) (q : Str → Bool)
    (hl : ∀ k ∈ l, hasPref (orgPref o1) k = true)
    (hq : ∀ k, hasPref (orgPref o1) k = true → q k = false) :
    (kvKeys (l.foldl (redisRemoveStep o1 tn) db)).filter q
      = (kvKeys db).filter q := by
  apply foldl_removeStep_keysFilter
  intro cfg hm _
  refine ⟨hq cfg (hl cfg hm), hq _ ?_⟩
  rw [removeProbeKey_decomp]
  exact hasPref_append _ _

theorem storageOf_Get (o : Str) (d : KV Str) (id : Str) :
    (storageOf o d).Get id = kvFind d (goKey o id) := rfl

theorem storageOf_GetTemplate (o : Str) (d : KV Str) (id : Str) :
    (storageOf o d).GetTemplate id = kvFind d (goTemplateKey o id) := rfl

theorem storageOf_GetAll (o : Str) (d : KV Str) :
    (storageOf o d).GetAll
      = ((kvKeys d).filter (fun k => hasPref (orgPref o) k)).map
          (trimPref (orgPref o)) := rfl

theorem applyOp_storageOf_opSet (o : Str) (d : KV Str) (i c : Str) :
    (applyOp (storageOf o d) (StOp.opSet i c)).RedisStore
      = kvSet (kvSet d (goKey o i) c) (goTemplateKey o i) (("unknown").toList) := rfl

theorem applyOp_storageOf_opSWT (o : Str) (d : KV Str) (i c tn : Str) :
    (applyOp (storageOf o d) (StOp.opSetWithTemplate i c tn)).RedisStore
      = kvSet (kvSet d (goKey o i) c) (goTemplateKey o i) tn := rfl

theorem applyOp_storageOf_opRBT (o : Str) (d : KV Str) (tn : Str) :
    (applyOp (storageOf o d) (StOp.opRemoveByTemplate tn)).RedisStore
      = ((kvKeys d).filter (fun k => hasPref (orgPref o) k)).foldl
          (redisRemoveStep o tn) d := rfl

theorem swt_pair_find_foreign (o1 : Str) (db : KV Str) (i c tn : Str) (K : Str)
    (hg : ¬ goKey o1 i = K) (ht : ¬ goTemplateKey o1 i = K) :
    kvFind (kvSet (kvSet db (goKey o1 i) c) (goTemplateKey o1 i) tn) K
      = kvFind db K := by
  rw [kvFind_kvSet_ne_key _ _ _ _ ht, kvFind_kvSet_ne_key _ _ _ _ hg]

theorem hasPref_orgPref_goKey (o : Str) (id : Str) :
    hasPref (orgPref o) (goKey o id) = true := by
  rw [goKey_decomp]; exact hasPref_append _ _

theorem hasPref_orgPref_goTemplateKey (o : Str) (id : Str) :
    hasPref (orgPref o) (goTemplateKey o id) = true := by
  rw [goTemplateKey_decomp]; exact hasPref_append _ _

theorem goAtoi_err_fst (s : Str) (h : (goAtoi s).2 = false) : (goAtoi s).1 = 0 := by
  cases s with
  | nil => rfl
  | cons c rest =>
    simp only [goAtoi] at h ⊢
    split_ifs at h ⊢ <;> rfl

/-! ## The claims -/

/-- Claim C1 (code bug): the claim asserts that after `RemoveByTemplate(T)`
both `Get` and `GetTemplate` fail for every artifact of `T`, on both
backends.  On the remote backend the cascade is a no-op: starting from a
freshly initialised remote store, after `SetWithTemplate("cfg1","c","T")`
and `RemoveByTemplate("T")`, `Get("cfg1")` and `GetTemplate("cfg1")` still
succeed, because the probe key built by `RemoveByTemplate` carries a
doubled colon and never matches the provenance key the write produced. -/
theorem C1_remote_cascade_is_noop :
    InitStorage { orgName := ("o").toList, useRedis := true,
                  redisURLOk := true, redisTTL := ("0").toList }
      = some (storageOf (("o").toList) []) ∧
    (((storageOf (("o").toList) []).SetWithTemplate (("cfg1").toList)
        (("c").toList) (("T").toList)).RemoveByTemplate (("T").toList)).Get
        (("cfg1").toList) = some (("c").toList) ∧
    (((storageOf (("o").toList) []).SetWithTemplate (("cfg1").toList)
        (("c").toList) (("T").toList)).RemoveByTemplate (("T").toList)).GetTemplate
        (("cfg1").toList) = some (("T").toList) := by decide

/-- Claim C3 (code bug): `SetWithTemplate` writes provenance at
`goTemplateKey org id` (= `{org}:template:{id}`), which is exactly what
`GetTemplate` reads; but the companion key the remote `RemoveByTemplate`
probes for the artifact stored at `goKey org id` is
`removeProbeKey org (goKey org id)` (= `{org}::template:{id}`, doubled
colon), and the two differ for every organization and id — the claimed
character-for-character agreement never holds. -/
theorem C3_provenance_key_mismatch (org id : Str) :
    ¬ removeProbeKey org (goKey org id) = goTemplateKey org id := by
  intro h
  rw [removeProbeKey_goKey, goTemplateKey_decomp] at h
  exact tag_ne_colonTag id id (List.append_cancel_left h).symm

/-- Claim C4 (code bug): after one `SetWithTemplate("cfg1","c","T")` the
remote `GetAll` returns `["template:cfg1", "cfg1"]` — the provenance key
survives the prefix scan because, unlike `RemoveByTemplate`, `GetAll`
never skips keys containing `":template:"`; the claimed result set
`{"cfg1"}` holds only for the in-memory backend (second conjunct). -/
theorem C4_getall_returns_provenance_keys :
    ((storageOf (("o").toList) []).SetWithTemplate (("cfg1").toList)
        (("c").toList) (("T").toList)).GetAll
      = [("template:cfg1").toList, ("cfg1").toList] ∧
    (InitStorage { orgName := ("o").toList, useRedis := false,
                   redisURLOk := false, redisTTL := [] }).map
        (fun s => (s.SetWithTemplate (("cfg1").toList) (("c").toList)
          (("T").toList)).GetAll)
      = some [("cfg1").toList] := by decide

/-- Claim C6 (code bug): on the remote backend, `RemoveByTemplate("T")`
deletes the artifact `"a"` even though its recorded provenance is `"B"`:
the doubled-colon probe key `{o}::template:a` aliases the artifact key of
the id `":template:a"`, whose content `"T"` is mistaken for the stored
template name.  Before the call `Get("a")` and `GetTemplate("a")` succeed
with provenance `"B" ≠ "T"`; after it `Get("a")` fails. -/
theorem C6_cascade_removes_foreign_artifact :
    (applyOps (storageOf (("o").toList) [])
        [StOp.opSetWithTemplate (("a").toList) (("c").toList) (("B").toList),
         StOp.opSetWithTemplate ((":template:a").toList) (("T").toList)
           (("B").toList)]).GetTemplate (("a").toList) = some (("B").toList) ∧
    (applyOps (storageOf (("o").toList) [])
        [StOp.opSetWithTemplate (("a").toList) (("c").toList) (("B").toList),
         StOp.opSetWithTemplate ((":template:a").toList) (("T").toList)
           (("B").toList)]).Get (("a").toList) = some (("c").toList) ∧
    (applyOps (storageOf (("o").toList) [])
        [StOp.opSetWithTemplate (("a").toList) (("c").toList) (("B").toList),
         StOp.opSetWithTemplate ((":template:a").toList) (("T").toList)
           (("B").toList),
         StOp.opRemoveByTemplate (("T").toList)]).Get (("a").toList)
      = none := by decide

/-- Claim C9 (confirmed): `Set(id, content)` is definitionally
`SetWithTemplate(id, content, "unknown")` — same resulting store state on
either backend (and in the model neither call can fail). -/
theorem C9_set_eq_setWithTemplate_unknown (s : Storage) (id content : Str) :
    s.Set id content = s.SetWithTemplate id content (("unknown").toList) := rfl

/-- Claim C10 (confirmed): with the remote backend selected and a
non-empty `REDIS_TTL` that `strconv.Atoi` rejects, `InitStorage` returns
a store (no error) whose TTL is 0 seconds, not the 259200-second
default — the parse error is discarded. -/
theorem C10_invalid_ttl_yields_zero (env : Env) (h1 : env.useRedis = true)
    (h2 : env.redisURLOk = true) (h3 : ¬ env.redisTTL = [])
    (h4 : (goAtoi env.redisTTL).2 = false) :
    (InitStorage env).map Storage.TTL = some 0 := by
  have hlen : 0 < env.redisTTL.length := List.length_pos.mpr h3
  simp only [InitStorage, h1, h2, if_true, hlen, goAtoi_err_fst env.redisTTL h4]
  rfl

/-- Witness for C10 at the concrete environment `REDIS_TTL = "abc"`. -/
theorem C10_invalid_ttl_yields_zero_witness :
    (goAtoi (("abc").toList)).2 = false ∧
    (InitStorage { orgName := ("o").toList, useRedis := true,
                   redisURLOk := true, redisTTL := ("abc").toList }).map
        Storage.TTL
      = some 0 :=
  ⟨by decide, C10_invalid_ttl_yields_zero
    { orgName := ("o").toList, useRedis := true, redisURLOk := true,
      redisTTL := ("abc").toList } rfl rfl (by decide) (by decide)⟩

/-- Counterexample to claim C2 as stated: with registry `{old}` and a
directory holding a parsable `a.conf.tmpl` and an unparsable
`b.conf.tmpl`, the failed reload returns an error but the registry is
changed — `old` (absent from the directory) has been removed and `a`
(from the new generation) has been added. -/
theorem C2_reload_not_atomic_cex :
    ((LoadTemplates
        [{ base := ("a.conf.tmpl").toList, parsed := some (("A").toList) },
         { base := ("b.conf.tmpl").toList, parsed := none }]
        { templates := [((("old").toList), ("t").toList)],
          globalStorage := none }).2).isSome = true ∧
    kvFind (LoadTemplates
        [{ base := ("a.conf.tmpl").toList, parsed := some (("A").toList) },
         { base := ("b.conf.tmpl").toList, parsed := none }]
        { templates := [((("old").toList), ("t").toList)],
          globalStorage := none }).1.templates (("old").toList) = none ∧
    kvFind (LoadTemplates
        [{ base := ("a.conf.tmpl").toList, parsed := some (("A").toList) },
         { base := ("b.conf.tmpl").toList, parsed := none }]
        { templates := [((("old").toList), ("t").toList)],
          globalStorage := none }).1.templates (("a").toList)
      = some (("A").toList) := by decide

/-- Claim C2 (corrected): when some recognized file fails to parse,
`LoadTemplates` does return an error — naming the first offending file —
but it does not leave the registry untouched: stale removals and earlier
successful parses persist.  What does hold of the final map is that every
name absent from the directory has been removed. -/
theorem C2_reload_error_and_removals (files : List TmplFile) (rs : RegState) :
    (LoadTemplates files rs).2
      = (files.find? (fun f => f.parsed.isNone)).map TmplFile.base ∧
    (∀ n, ¬ n ∈ currentNames files →
      kvFind (LoadTemplates files rs).1.templates n = none) := by
  constructor
  · exact loadPhase_err files _
  · intro n hn
    show kvFind (loadPhase files
        (removeTemplates (templatesToRemove files rs.templates) rs).templates).1 n
      = none
    rw [kvFind_loadPhase_notname files _ n hn, removeTemplates_templates,
      kvFind_foldl_kvDel]
    by_cases hmem : n ∈ templatesToRemove files rs.templates
    · rw [if_pos hmem]
    · rw [if_neg hmem]
      cases hf : kvFind rs.templates n with
      | none => rfl
      | some v =>
        exfalso
        apply hmem
        refine List.mem_filter.mpr ⟨?_, by simp [hn]⟩
        rw [mem_kvKeys, hf]
        rfl

/-- Witness for C2: on a concrete failed reload the parse error names the
offending file and the stale template is gone. -/
theorem C2_reload_error_and_removals_witness :
    (LoadTemplates
        [{ base := ("b.conf.tmpl").toList, parsed := none }]
        { templates := [((("old").toList), ("t").toList)],
          globalStorage := none }).2 = some (("b.conf.tmpl").toList) ∧
    kvFind (LoadTemplates
        [{ base := ("b.conf.tmpl").toList, parsed := none }]
        { templates := [((("old").toList), ("t").toList)],
          globalStorage := none }).1.templates (("old").toList) = none :=
  ⟨by decide,
   (C2_reload_error_and_removals
      [{ base := ("b.conf.tmpl").toList, parsed := none }]
      { templates := [((("old").toList), ("t").toList)],
        globalStorage := none }).2 (("old").toList) (by decide)⟩

/-- Counterexample to claim C5 as stated: on the remote backend a single
`SetWithTemplate("x","c","T")` creates the provenance key
`{o}:template:x`, which aliases the artifact key of the id
`"template:x"` — so `Get("template:x")` succeeds while
`GetTemplate("template:x")` fails. -/
theorem C5_provenance_alias_cex :
    (applyOps (storageOf (("o").toList) [])
        [StOp.opSetWithTemplate (("x").toList) (("c").toList)
          (("T").toList)]).Get (("template:x").toList)
      = some (("T").toList) ∧
    (applyOps (storageOf (("o").toList) [])
        [StOp.opSetWithTemplate (("x").toList) (("c").toList)
          (("T").toList)]).GetTemplate (("template:x").toList) = none := by
  decide

/-- Claim C5 (corrected): for every store obtained from `InitStorage` and
every sequence of `Set` / `SetWithTemplate` / `RemoveByTemplate`
operations, whenever `Get(id)` succeeds `GetTemplate(id)` also succeeds —
unconditionally on the in-memory backend, and on the remote backend for
every id that does not begin with `"template:"` (such ids can alias
provenance keys, see the counterexample). -/
theorem C5_provenance_consistency_amended (env : Env) (s0 : Storage)
    (hinit : InitStorage env = some s0) (ops : List StOp) (id : Str)
    (hid : (applyOps s0 ops).UseRedis = true → hasPref tmplTag id = false)
    (hget : ((applyOps s0 ops).Get id).isSome = true) :
    ((applyOps s0 ops).GetTemplate id).isSome = true :=
  StoreInv_get_getTemplate _
    (StoreInv_applyOps ops s0 (StoreInv_InitStorage env s0 hinit)) id hid hget

/-- Witness for C5 at a concrete remote store and operation sequence. -/
theorem C5_provenance_consistency_amended_witness :
    ((applyOps (storageOf (("o").toList) [])
        [StOp.opSetWithTemplate (("x").toList) (("c").toList)
          (("T").toList)]).GetTemplate (("x").toList)).isSome = true :=
  C5_provenance_consistency_amended
    { orgName := ("o").toList, useRedis := true,
      redisURLOk := true, redisTTL := ("0").toList }
    (storageOf (("o").toList) []) (by decide)
    [StOp.opSetWithTemplate (("x").toList) (("c").toList) (("T").toList)]
    (("x").toList) (fun _ => by decide) (by decide)

/-- Counterexample to claim C7 as stated: organization names may contain
`}`, and then distinct organizations collide — an artifact written under
organization `a}:b` with id `c` is read back by `Get` under organization
`a` with id `b}:c`, through the shared remote database. -/
theorem C7_namespace_leak_cex :
    (storageOf (("a").toList)
        (((storageOf (("a\x7d:b").toList) []).SetWithTemplate (("c").toList)
            (("secret").toList) (("T").toList)).RedisStore)).Get
        (("b\x7d:c").toList) = some (("secret").toList) := by decide

/-- Claim C7 (corrected): for organization names free of `}` (and of
redis glob metacharacters), every operation performed under `o1` on the
shared remote database leaves `Get`, `GetTemplate` and `GetAll` under a
different organization `o2` entirely unchanged.  (In-memory stores are
per-instance in `InitStorage`, so two organizations never share those
maps.) -/
theorem C7_namespace_isolation_amended (o1 o2 : Str) (h1 : GoodOrg o1)
    (h2 : GoodOrg o2) (hne : ¬ o1 = o2) (db : KV Str) (op : StOp) :
    (∀ id, (storageOf o2 (applyOp (storageOf o1 db) op).RedisStore).Get id
        = (storageOf o2 db).Get id) ∧
    (∀ id, (storageOf o2 (applyOp (storageOf o1 db) op).RedisStore).GetTemplate id
        = (storageOf o2 db).GetTemplate id) ∧
    (storageOf o2 (applyOp (storageOf o1 db) op).RedisStore).GetAll
      = (storageOf o2 db).GetAll := by
  have hr1 : ¬ rbrace ∈ o1 := h1.1
  have hr2 : ¬ rbrace ∈ o2 := h2.1
  have hne' : ¬ o2 = o1 := fun h => hne h.symm
  have hexcl : ∀ K, hasPref (orgPref o1) K = true →
      hasPref (orgPref o2) K = false :=
    fun K hK => two_pref_excl o1 o2 K hr1 hr2 hne hK
  have hexcl2 : ∀ K, hasPref (orgPref o2) K = true →
      hasPref (orgPref o1) K = false :=
    fun K hK => two_pref_excl o2 o1 K hr2 hr1 hne' hK
  cases op with
  | opSet i c =>
    refine ⟨?_, ?_, ?_⟩
    · intro id
      rw [storageOf_Get, storageOf_Get, applyOp_storageOf_opSet]
      apply swt_pair_find_foreign
      · rw [goKey_decomp, goKey_decomp]
        exact cross_org_key_ne o1 o2 i id hr1 hr2 hne
      · rw [goTemplateKey_decomp, goKey_decomp]
        exact cross_org_key_ne o1 o2 _ id hr1 hr2 hne
    · intro id
      rw [storageOf_GetTemplate, storageOf_GetTemplate, applyOp_storageOf_opSet]
      apply swt_pair_find_foreign
      · rw [goKey_decomp, goTemplateKey_decomp]
        exact cross_org_key_ne o1 o2 i _ hr1 hr2 hne
      · rw [goTemplateKey_decomp, goTemplateKey_decomp]
        exact cross_org_key_ne o1 o2 _ _ hr1 hr2 hne
    · rw [storageOf_GetAll, storageOf_GetAll, applyOp_storageOf_opSet]
      rw [kvKeys_filter_kvSet _ _ _ _ (hexcl _ (hasPref_orgPref_goTemplateKey o1 i)),
        kvKeys_filter_kvSet _ _ _ _ (hexcl _ (hasPref_orgPref_goKey o1 i))]
  | opSetWithTemplate i c tn =>
    refine ⟨?_, ?_, ?_⟩
    · intro id
      rw [storageOf_Get, storageOf_Get, applyOp_storageOf_opSWT]
      apply swt_pair_find_foreign
      · rw [goKey_decomp, goKey_decomp]
        exact cross_org_key_ne o1 o2 i id hr1 hr2 hne
      · rw [goTemplateKey_decomp, goKey_decomp]
        exact cross_org_key_ne o1 o2 _ id hr1 hr2 hne
    · intro id
      rw [storageOf_GetTemplate, storageOf_GetTemplate, applyOp_storageOf_opSWT]
      apply swt_pair_find_foreign
      · rw [goKey_decomp, goTemplateKey_decomp]
        exact cross_org_key_ne o1 o2 i _ hr1 hr2 hne
      · rw [goTemplateKey_decomp, goTemplateKey_decomp]
        exact cross_org_key_ne o1 o2 _ _ hr1 hr2 hne
    · rw [storageOf_GetAll, storageOf_GetAll, applyOp_storageOf_opSWT]
      rw [kvKeys_filter_kvSet _ _ _ _ (hexcl _ (hasPref_orgPref_goTemplateKey o1 i)),
        kvKeys_filter_kvSet _ _ _ _ (hexcl _ (hasPref_orgPref_goKey o1 i))]
  | opRemoveByTemplate tn =>
    have hl : ∀ k ∈ (kvKeys db).filter (fun k => hasPref (orgPref o1) k),
        hasPref (orgPref o1) k = true :=
      fun k hk => (List.mem_filter.mp hk).2
    refine ⟨?_, ?_, ?_⟩
    · intro id
      rw [storageOf_Get, storageOf_Get, applyOp_storageOf_opRBT]
      exact foldl_removeStep_find_foreign o1 tn _ db _ hl
        (hexcl2 _ (hasPref_orgPref_goKey o2 id))
    · intro id
      rw [storageOf_GetTemplate, storageOf_GetTemplate, applyOp_storageOf_opRBT]
      exact foldl_removeStep_find_foreign o1 tn _ db _ hl
        (hexcl2 _ (hasPref_orgPref_goTemplateKey o2 id))
    · rw [storageOf_GetAll, storageOf_GetAll, applyOp_storageOf_opRBT]
      rw [foldl_removeStep_keysFilter_foreign o1 tn _ db _ hl hexcl]

/-- Witness for C7 at concrete organizations `a`, `b` and one `Set`. -/
theorem C7_namespace_isolation_amended_witness :
    (storageOf (("b").toList) ((applyOp (storageOf (("a").toList) [])
        (StOp.opSet (("x").toList) (("y").toList))).RedisStore)).GetAll
      = (storageOf (("b").toList) ([] : KV Str)).GetAll :=
  (C7_namespace_isolation_amended (("a").toList) (("b").toList)
    (by decide) (by decide) (by decide) [] (StOp.opSet (("x").toList)
      (("y").toList))).2.2

/-- Counterexample to claim C8 as stated: if the registry still holds a
template (`stale`) that the directory no longer contains, the FIRST of
the two reloads computes a non-empty removed set and its cascade deletes
the cached artifact that `stale` produced (in-memory backend), so the
removed-template set is not empty "both times". -/
theorem C8_first_reload_removes_cex :
    templatesToRemove ([] : List TmplFile)
        [((("stale").toList), ("t").toList)] = [("stale").toList] ∧
    ((LoadTemplates ([] : List TmplFile)
        { templates := [((("stale").toList), ("t").toList)],
          globalStorage := some
            { UseRedis := false,
              MemoryStore := [(goKey (("o").toList) (("x").toList),
                ("c").toList)],
              MemoryTemplateMap := [(goKey (("o").toList) (("x").toList),
                ("stale").toList)],
              RedisStore := [], Organization := ("o").toList,
              TTL := 0 } }).1.globalStorage).map
        (fun g => g.Get (("x").toList)) = some none := by decide

/-- Claim C8 (corrected): the SECOND of two reloads over an unchanged
directory computes an empty removed-template set, performs no cascade
(the cache handle is exactly the one left by the first call), and leaves
the registry's template-name set equal to its state after the first
call.  The first call may itself remove stale templates, so "empty both
times" fails (see the counterexample). -/
theorem C8_second_reload_stable (files : List TmplFile) (rs : RegState) :
    templatesToRemove files (LoadTemplates files rs).1.templates = [] ∧
    (LoadTemplates files (LoadTemplates files rs).1).1.globalStorage
      = (LoadTemplates files rs).1.globalStorage ∧
    ∀ n, n ∈ kvKeys (LoadTemplates files (LoadTemplates files rs).1).1.templates ↔
        n ∈ kvKeys (LoadTemplates files rs).1.templates := by
  refine ⟨templatesToRemove_after files rs, ?_, ?_⟩
  · show (removeTemplates (templatesToRemove files
        (LoadTemplates files rs).1.templates)
        (LoadTemplates files rs).1).globalStorage = _
    rw [templatesToRemove_after files rs]
    rfl
  · intro n
    rw [mem_keys_LoadTemplates, templatesToRemove_after files rs]
    constructor
    · rintro (h1 | ⟨h1, _⟩)
      · exact (mem_keys_LoadTemplates files rs n).mpr (Or.inl h1)
      · exact h1
    · intro h1
      exact Or.inr ⟨h1, by simp⟩

end AlloyConfig
